import Mathlib

/-!
Verification development for the `flux_rounds` card-game engine.

The game core (deck composition, seeded shuffling, meld validation,
turn/out-trigger state machine, scoring) is embedded shallowly: each
TypeScript function of `src/game/*.ts` and the action handlers of
`src/components/GameView.tsx` becomes a Lean definition with the same
name and the same branching structure.  JavaScript 32-bit integer
operations are modelled on naturals modulo 2^32; JavaScript exceptions
become `Option.none`; optional fields become `Option`; the injected RNG
`() => number` is modelled as the stream of its outputs, a function
from call index to rational in `[0,1)`.
-/

namespace FluxRounds

/-! ## Data model (src/game/types.ts) -/

/-- The five suits.  Jokers are stored with suit `STARS` (see `createDecks`). -/
inductive Suit
  | STARS | HEARTS | CLUBS | SPADES | DIAMONDS
deriving DecidableEq, Repr

/-- String form of a suit, as the TypeScript string union value. -/
def Suit.name : Suit → String
  | .STARS => "STARS"
  | .HEARTS => "HEARTS"
  | .CLUBS => "CLUBS"
  | .SPADES => "SPADES"
  | .DIAMONDS => "DIAMONDS"

/-- Rank encoding: 0 is the Joker, 3..13 are 3..10, J(11), Q(12), K(13).
Ranks are modelled as naturals. -/
abbrev Rank := Nat

inductive MeldType
  | BOOK | RUN
deriving DecidableEq, Repr

/-- String form of a meld type, as the TypeScript string union value. -/
def MeldType.name : MeldType → String
  | .BOOK => "BOOK"
  | .RUN => "RUN"

structure Card where
  id : String
  suit : Suit
  rank : Rank
  deckIndex : Nat
deriving DecidableEq, Repr

structure RoundRule where
  round : Nat
  handSize : Nat
  wildRank : Rank
deriving DecidableEq, Repr

/-! ## Rule table and scorer (src/game/rules.ts) -/

namespace FiveCrownsCompat

def suits : List Suit := [.STARS, .HEARTS, .CLUBS, .SPADES, .DIAMONDS]

def ranks : List Rank := [3, 4, 5, 6, 7, 8, 9, 10, 11, 12, 13]

def decks : Nat := 2

def jokersPerDeck : Nat := 3

def totalRounds : Nat := 11

def jokerPenalty : Nat := 50

def wildPenalty : Nat := 20

end FiveCrownsCompat

/-- `getRoundRule(round)`; the TypeScript function throws outside `[1,11]`,
modelled as `none`. -/
def getRoundRule (round : Nat) : Option RoundRule :=
  if round < 1 ∨ round > FiveCrownsCompat.totalRounds then none
  else some { round := round, handSize := round + 2, wildRank := round + 2 }

def isJoker (rank : Rank) : Bool := rank == 0

def isWildRank (rank : Rank) (rule : RoundRule) : Bool :=
  isJoker rank || rank == rule.wildRank

/-- `scoreHand(ranks, rule)`: Joker 50, round wild 20, otherwise face value. -/
def scoreHand (ranks : List Rank) (rule : RoundRule) : Nat :=
  ranks.foldl
    (fun total r =>
      if r = 0 then total + FiveCrownsCompat.jokerPenalty
      else if r = rule.wildRank then total + FiveCrownsCompat.wildPenalty
      else total + r)
    0

/-! ## Alternative scorer (src/game/scoring.ts) -/

/-- `calculateHandScore(hand, rule, wildPenalty)`: every wild card (Joker
included, via `isWildRank`) scores `wildPenalty`, other cards their rank. -/
def calculateHandScore (hand : List Card) (rule : RoundRule) (wildPenalty : Nat) : Nat :=
  hand.foldl
    (fun total card =>
      total + (if isWildRank card.rank rule then wildPenalty else card.rank))
    0

/-- `calculateHandScore` with its default argument `wildPenalty = 20`. -/
def calculateHandScoreDefault (hand : List Card) (rule : RoundRule) : Nat :=
  calculateHandScore hand rule 20

/-! ## Deck and RNG (src/game/deck.ts) -/

/-- 2^32, the modulus of JavaScript 32-bit integer operations. -/
def U32 : Nat := 4294967296

/-- One call of the closure returned by `mulberry32`: from the stored
state `t` produce the new state and the 32-bit output numerator.
`Math.imul` and the bitwise operators truncate to 32 bits, modelled by
`% U32`; the operand order (`1 | t`, `61 | x`) is kept as in the source. -/
def mulberry32Step (t : Nat) : Nat × Nat :=
  let t' := (t + 0x6D2B79F5) % U32
  let x1 := ((t' ^^^ (t' >>> 15)) * (1 ||| t')) % U32
  let x2 := x1 ^^^ ((x1 + ((x1 ^^^ (x1 >>> 7)) * (61 ||| x1)) % U32) % U32)
  (t', (x2 ^^^ (x2 >>> 14)) % U32)

/-- State of the generator before call `k` (the seed is coerced with `>>> 0`). -/
def mulberry32State (seed : Nat) : Nat → Nat
  | 0 => seed % U32
  | k + 1 => (mulberry32Step (mulberry32State seed k)).1

/-- Numerator of the `k`-th output of `mulberry32(seed)`. -/
def mulberry32Num (seed k : Nat) : Nat :=
  (mulberry32Step (mulberry32State seed k)).2

/-- The generator returned by `mulberry32(seed)`, as the stream of its
outputs: call `k` returns `numerator / 2^32`. -/
def mulberry32 (seed : Nat) : Nat → ℚ :=
  fun k => (mulberry32Num seed k : ℚ) / (U32 : ℚ)

/-- Swap two positions of a list; indices out of range leave the list
unchanged (the shuffle only uses in-range indices for an RNG in `[0,1)`). -/
def listSwap (l : List α) (i j : Nat) : List α :=
  match l.get? i, l.get? j with
  | some x, some y => (l.set i y).set j x
  | _, _ => l

/-- The Fisher-Yates loop of `shuffle`: `i` counts down from `length - 1`
to `1`, `k` is the index of the next RNG call,
`j = Math.floor(rng() * (i + 1))`. -/
def shuffleAux (rng : Nat → ℚ) : Nat → Nat → List α → List α
  | _, 0, a => a
  | k, i + 1, a =>
      let j := (rng k * ((i : ℚ) + 2)).floor.toNat
      shuffleAux rng (k + 1) i (listSwap a (i + 1) j)

/-- `shuffle(arr, rng)`. -/
def shuffle (l : List α) (rng : Nat → ℚ) : List α :=
  shuffleAux rng 0 (l.length - 1) l

/-- `createDecks(params)`.  The nested `for` loops are rendered as folds;
`out.length` at the moment a card is pushed is the running index used in
its id string. -/
def createDecks (suits : List Suit) (ranks : List Rank)
    (decks jokersPerDeck : Nat) : List Card :=
  (List.range decks).foldl
    (fun out d' =>
      let d := d' + 1
      let out := suits.foldl
        (fun out suit =>
          ranks.foldl
            (fun out rank =>
              let n := out.length
              let sn := suit.name
              out ++ [{ id := s!"D{d}-{sn}-{rank}-{n}", suit := suit,
                        rank := rank, deckIndex := d }])
            out)
        out
      (List.range jokersPerDeck).foldl
        (fun out _ =>
          let n := out.length
          out ++ [{ id := s!"D{d}-JOKER-0-{n}", suit := Suit.STARS,
                    rank := 0, deckIndex := d }])
        out)
    []

structure DealResult where
  hands : List (List Card)
  drawPile : List Card
  discardPile : List Card
deriving DecidableEq, Repr

/-- `deal(deck, playerCount, handSize, options)`.  The round-robin double
loop gives player `p` the cards at indices `c * playerCount + p`; if the
deck runs out the JavaScript code would push `undefined`, modelled here by
skipping (no claim depends on an overdrawn deal). -/
def deal (deck : List Card) (playerCount handSize : Nat)
    (startDiscard : Bool) : DealResult :=
  let hands := (List.range playerCount).map
    (fun p => (List.range handSize).filterMap
      (fun c => deck.get? (c * playerCount + p)))
  let remaining := deck.drop (handSize * playerCount)
  match startDiscard, remaining with
  | true, r0 :: rest => { hands := hands, drawPile := rest, discardPile := [r0] }
  | _, _ => { hands := hands, drawPile := remaining, discardPile := [] }

/-- `drawOne(drawPile)`; the empty-pile throw is modelled as `none`. -/
def drawOne (drawPile : List Card) : Option (Card × List Card) :=
  match drawPile with
  | [] => none
  | c :: rest => some (c, rest)

/-- `takeDiscardTop(discardPile)`; the empty-pile throw is modelled as `none`. -/
def takeDiscardTop (discardPile : List Card) : Option (Card × List Card) :=
  match discardPile.getLast? with
  | none => none
  | some c => some (c, discardPile.dropLast)

/-- `discardOne(discardPile, card)`. -/
def discardOne (discardPile : List Card) (card : Card) : List Card :=
  discardPile ++ [card]

/-- `recycleDiscardIntoDraw(drawPile, discardPile, rng)`. -/
def recycleDiscardIntoDraw (drawPile discardPile : List Card)
    (rng : Nat → ℚ) : List Card × List Card :=
  if drawPile.length > 0 then (drawPile, discardPile)
  else if discardPile.length ≤ 1 then (drawPile, discardPile)
  else
    match discardPile.getLast? with
    | some top => (shuffle discardPile.dropLast rng, [top])
    | none => (drawPile, discardPile)

/-! ## Meld validator (src/game/validator.ts) -/

inductive ValidationResult
  | vOk
  | vFail (reason : String)
deriving DecidableEq, Repr

def ValidationResult.isOk : ValidationResult → Bool
  | .vOk => true
  | .vFail _ => false

/-- `cards.filter((c) => !isWildRank(c.rank, rule))`, computed by both
`validateBook` and `validateRun` (the spec's "non-wild cards"). -/
def nonWildCards (cards : List Card) (rule : RoundRule) : List Card :=
  cards.filter fun c => !(isWildRank c.rank rule)

/-- `validateBook(cards, rule)`: the loop over the non-wild cards fails at
the first rank differing from the first non-wild card's rank. -/
def validateBook (cards : List Card) (rule : RoundRule) : ValidationResult :=
  let nonWild := nonWildCards cards rule
  match nonWild with
  | [] => .vOk
  | c0 :: _ =>
      if nonWild.all fun c => c.rank == c0.rank then .vOk
      else .vFail "Must share the same rank"

/-- Adjacent-duplicate scan of the sorted rank list
(`ranks[i] === ranks[i-1]` loop in `validateRun`). -/
def hasAdjacentDup : List Rank → Bool
  | a :: b :: rest => a == b || hasAdjacentDup (b :: rest)
  | _ => false

/-- The gap loop of `validateRun`: gaps are computed over `ℤ` exactly as in
the source (`gap = cur - prev - 1`); a negative gap aborts with `none`. -/
def gapTotal : List Rank → Option Int
  | a :: b :: rest =>
      let gap : Int := (b : Int) - (a : Int) - 1
      if gap < 0 then none
      else (gapTotal (b :: rest)).map (fun t => gap + t)
  | _ => some 0

/-- `validateRun(cards, rule)`.  The JavaScript `sort((a, b) => a - b)` on
naturals is the stable ascending sort, rendered as `insertionSort`. -/
def validateRun (cards : List Card) (rule : RoundRule) : ValidationResult :=
  let nonWild := nonWildCards cards rule
  match nonWild with
  | [] => .vOk
  | c0 :: _ =>
      if !(nonWild.all fun c => c.suit == c0.suit) then
        .vFail "Must be a single suit"
      else
        let ranks := List.insertionSort (· ≤ ·) (nonWild.map (·.rank))
        if hasAdjacentDup ranks then .vFail "Must not contain duplicate ranks"
        else
          let wildCount := cards.length - nonWild.length
          match gapTotal ranks with
          | none => .vFail "Must have valid rank order"
          | some needed =>
              if needed > (wildCount : Int) then
                .vFail "Must have enough wilds to fill gaps"
              else .vOk

/-- `validateMeld(cards, type, rule)`. -/
def validateMeld (cards : List Card) (type : MeldType) (rule : RoundRule) :
    ValidationResult :=
  if cards.length < 3 then .vFail "Must select at least 3 cards"
  else
    match type with
    | .BOOK => validateBook cards rule
    | .RUN => validateRun cards rule

/-- `validateLayoff({meldType, meldCards, addedCards, rule})`. -/
def validateLayoff (meldType : MeldType) (meldCards addedCards : List Card)
    (rule : RoundRule) : ValidationResult :=
  if addedCards.length = 0 then .vFail "Must select cards to layoff"
  else validateMeld (meldCards ++ addedCards) meldType rule

/-! ## Turn state machine (src/game/state.ts) -/

inductive TurnPhase
  | NEED_DRAW | NEED_DISCARD
deriving DecidableEq, Repr

inductive GameStatus
  | PLAYING | ROUND_END | GAME_OVER
deriving DecidableEq, Repr

structure PlayerState where
  id : String
  name : String
  hand : List Card
  score : Nat
deriving DecidableEq, Repr

structure Meld where
  id : String
  playerId : String
  type : MeldType
  cards : List Card
  round : Nat
deriving DecidableEq, Repr

structure GameState where
  round : Nat
  rule : RoundRule
  players : List PlayerState
  currentPlayerIndex : Nat
  drawPile : List Card
  discardPile : List Card
  melds : List Meld
  selectedCardIds : List String
  turnPhase : TurnPhase
  outTriggeredByPlayerId : Option String
  turnsRemainingAfterOut : Option Nat
  status : GameStatus
  message : Option String
deriving DecidableEq, Repr

/-- `computeWinnerName(players)`: JavaScript `sort` is stable, as is
`insertionSort` with a reflexive order. -/
def computeWinnerName (players : List PlayerState) : String :=
  match List.insertionSort (fun a b => a.score ≤ b.score) players with
  | [] => "Unknown"
  | p :: _ => p.name

/-- `endRound(state)`: add each player's hand penalty to its score, end the
round (or the game when this was round 11), clear the out-trigger fields. -/
def endRound (state : GameState) : GameState :=
  let updatedPlayers := state.players.map fun p =>
    { p with score := p.score + scoreHand (p.hand.map (·.rank)) state.rule }
  let isGameOver := state.round ≥ FiveCrownsCompat.totalRounds
  let w := computeWinnerName updatedPlayers
  let r := state.round
  { state with
      players := updatedPlayers
      selectedCardIds := []
      turnPhase := .NEED_DRAW
      status := if isGameOver then .GAME_OVER else .ROUND_END
      message := some (if isGameOver then "Game over. Winner: " ++ w
                       else s!"Round {r} ended.")
      outTriggeredByPlayerId := none
      turnsRemainingAfterOut := none }

/-- `typeof options?.seed === "number" ? mulberry32(options.seed) : defaultRng`;
`defaultRng` is `Math.random`, modelled by the injected `fallbackRng` stream. -/
def chooseRng (seed : Option Nat) (fallbackRng : Nat → ℚ) : Nat → ℚ :=
  match seed with
  | some s => mulberry32 s
  | none => fallbackRng

/-- `nextRound(state, options)`.  The unreachable `getRoundRule` throw is
`none`. -/
def nextRound (state : GameState) (seed : Option Nat) (startDiscard : Bool)
    (fallbackRng : Nat → ℚ) : Option GameState :=
  if state.round ≥ FiveCrownsCompat.totalRounds then
    let w := computeWinnerName state.players
    some { state with status := .GAME_OVER,
                      message := some ("Game over. Winner: " ++ w) }
  else
    match getRoundRule (state.round + 1) with
    | none => none
    | some rule =>
      let round := state.round + 1
      let deck := createDecks FiveCrownsCompat.suits FiveCrownsCompat.ranks
        FiveCrownsCompat.decks FiveCrownsCompat.jokersPerDeck
      let rng := chooseRng seed fallbackRng
      let shuffled := shuffle deck rng
      let dealt := deal shuffled state.players.length rule.handSize startDiscard
      let players := state.players.mapIdx fun i p =>
        { p with hand := dealt.hands.getD i [] }
      let wr := rule.wildRank
      some { state with
          round := round
          rule := rule
          players := players
          drawPile := dealt.drawPile
          discardPile := dealt.discardPile
          melds := []
          selectedCardIds := []
          turnPhase := .NEED_DRAW
          status := .PLAYING
          outTriggeredByPlayerId := none
          turnsRemainingAfterOut := none
          message := some s!"Round {round} started. Wild Rank: {wr}" }

/-- `triggerOutIfNeeded(state, playerId)`: write-once; a no-op when an out
was already triggered. -/
def triggerOutIfNeeded (state : GameState) (playerId : String) : GameState :=
  match state.outTriggeredByPlayerId with
  | some _ => state
  | none =>
      let others := state.players.length - 1
      { state with
          outTriggeredByPlayerId := some playerId
          turnsRemainingAfterOut := some others
          message := some (playerId ++ " went out! Others have one final turn each.") }

/-- `consumeOutTurnIfNeeded(state)`: decrement the remaining final turns;
`next <= 0` (here: `rem - 1 = 0` on naturals) ends the round. -/
def consumeOutTurnIfNeeded (state : GameState) : GameState :=
  match state.outTriggeredByPlayerId with
  | none => state
  | some _ =>
      match state.turnsRemainingAfterOut with
      | none => state
      | some rem =>
          let next := rem - 1
          let r := state.round
          if next = 0 then
            endRound { state with
              message := some s!"Final turns completed. Scoring round {r}..." }
          else { state with turnsRemainingAfterOut := some next }

/-- The final block of `afterDiscard`: advance `currentPlayerIndex` with
wrap-around and reset the phase. -/
def advanceToNextPlayer (s : GameState) : GameState :=
  { s with
      currentPlayerIndex := (s.currentPlayerIndex + 1) % s.players.length
      turnPhase := .NEED_DRAW }

/-- `afterDiscard(state, playerId, newHandLength)`: (A) first-out trigger,
(B) final-turn consumption for a non-out player (returning early when the
round ended), (C) advance to the next player. -/
def afterDiscard (state : GameState) (playerId : String)
    (newHandLength : Nat) : GameState :=
  let s := if newHandLength = 0 ∧ state.outTriggeredByPlayerId = none
           then triggerOutIfNeeded state playerId else state
  match s.outTriggeredByPlayerId with
  | some a =>
      if a ≠ playerId then
        let s2 := consumeOutTurnIfNeeded s
        if s2.status ≠ .PLAYING then s2
        else advanceToNextPlayer s2
      else advanceToNextPlayer s
  | none => advanceToNextPlayer s

/-! ## Action handlers (src/components/GameView.tsx)

The handlers are the `setState` bodies; guards that prevent `setState`
from being called return the state unchanged.  A JavaScript crash
(indexing `players` out of range, drawing from an empty pile) is `none`.
`Date.now()` in the meld id is the parameter `now`. -/

def suitOrderIndex (suit : Suit) : Int :=
  match FiveCrownsCompat.suits.indexOf? suit with
  | some i => (i : Int)
  | none => -1

/-- Lookup in the `Map` built from the hand: `Map.set` overwrites, so a
duplicated id resolves to the last card carrying it. -/
def handLookup (hand : List Card) (cardId : String) : Option Card :=
  (hand.filter fun c => c.id == cardId).getLast?

/-- `selectedCardIds.map((id) => map.get(id)).filter(Boolean)`. -/
def selectedFromHand (hand : List Card) (selectedCardIds : List String) :
    List Card :=
  selectedCardIds.filterMap (handLookup hand)

def canAct (s : GameState) : Prop := s.status = .PLAYING

def canDraw (s : GameState) : Prop := canAct s ∧ s.turnPhase = .NEED_DRAW

def canMeld (s : GameState) : Prop := canAct s ∧ s.turnPhase = .NEED_DISCARD

def canDiscard (s : GameState) : Prop := canAct s ∧ s.turnPhase = .NEED_DISCARD

instance (s : GameState) : Decidable (canAct s) := by unfold canAct; infer_instance
instance (s : GameState) : Decidable (canDraw s) := by unfold canDraw; infer_instance
instance (s : GameState) : Decidable (canMeld s) := by unfold canMeld; infer_instance
instance (s : GameState) : Decidable (canDiscard s) := by unfold canDiscard; infer_instance

/-- Replace the current player's hand
(`players.map((p, idx) => idx === currentPlayerIndex ? {...p, hand} : p)`). -/
def setCurrentHand (s : GameState) (newHand : List Card) : List PlayerState :=
  s.players.mapIdx fun i p =>
    if i = s.currentPlayerIndex then { p with hand := newHand } else p

/-- `onDrawFromDeck`. -/
def onDrawFromDeck (s : GameState) (rng : Nat → ℚ) : Option GameState :=
  if ¬ canDraw s then some s
  else
    let piles :=
      if s.drawPile.length = 0 then
        recycleDiscardIntoDraw s.drawPile s.discardPile rng
      else (s.drawPile, s.discardPile)
    match drawOne piles.1 with
    | none => none
    | some (card, drawPile) =>
        match s.players.get? s.currentPlayerIndex with
        | none => none
        | some me =>
            let players := setCurrentHand s (me.hand ++ [card])
            some { s with
                players := players
                drawPile := drawPile
                discardPile := piles.2
                turnPhase := .NEED_DISCARD
                message := some (me.name ++ " drew a card. Now discard 1 card.") }

/-- `onDrawFromDiscard`. -/
def onDrawFromDiscard (s : GameState) : Option GameState :=
  if ¬ canDraw s then some s
  else if s.discardPile.length = 0 then
    some { s with message := some "Discard pile is empty." }
  else
    match takeDiscardTop s.discardPile with
    | none => none
    | some (card, discardPile) =>
        match s.players.get? s.currentPlayerIndex with
        | none => none
        | some me =>
            let players := setCurrentHand s (me.hand ++ [card])
            some { s with
                players := players
                discardPile := discardPile
                turnPhase := .NEED_DISCARD
                message := some (me.name ++ " took the top discard. Now discard 1 card.") }

/-- `onSubmitMeld`: auto-detect BOOK then RUN; reject when both validations
fail or when removing the selection would empty the hand. -/
def onSubmitMeld (s : GameState) (now : Nat) : Option GameState :=
  if ¬ canMeld s then some s
  else
    match s.players.get? s.currentPlayerIndex with
    | none => none
    | some me =>
        let cards := selectedFromHand me.hand s.selectedCardIds
        if cards.length = 0 then some { s with message := some "Select cards first." }
        else
          let first := validateMeld cards .BOOK s.rule
          let detected : MeldType × ValidationResult :=
            if first.isOk then (.BOOK, first)
            else (.RUN, validateMeld cards .RUN s.rule)
          match detected.2 with
          | .vFail reason =>
              some { s with message := some ("Invalid meld: " ++ reason) }
          | .vOk =>
              let removeIds := cards.map (·.id)
              let newHand := me.hand.filter fun c => !(removeIds.contains c.id)
              if newHand.length < 1 then
                let msg := "Must keep 1 card to discard. (Go out happens on discard.)"
                some { s with message := some msg }
              else
                let players := setCurrentHand s newHand
                let r := s.round
                let pid := me.id
                let meldId := s!"R{r}-{pid}-{now}"
                some { s with
                    players := players
                    melds := s.melds ++
                      [{ id := meldId, playerId := me.id, type := detected.1,
                         cards := cards, round := s.round }]
                    selectedCardIds := []
                    message :=
                      let n := cards.length
                      some (me.name ++ " submitted a " ++ detected.1.name
                        ++ s!" ({n})" ++ ". Now discard 1 card.") }

/-- `onLayoffToMeld(meldId)`. -/
def onLayoffToMeld (s : GameState) (meldId : String) : Option GameState :=
  if ¬ (canAct s ∧ canMeld s) then some s
  else
    match s.players.get? s.currentPlayerIndex with
    | none => none
    | some me =>
        if s.selectedCardIds.length = 0 then
          some { s with message := some "Select cards to lay off first." }
        else
          let addedCards := selectedFromHand me.hand s.selectedCardIds
          if addedCards.length = 0 then
            some { s with message := some "Selected cards not found in hand." }
          else if me.hand.length - addedCards.length < 1 then
            let msg := "Must keep 1 card to discard. (Go out happens on discard.)"
            some { s with message := some msg }
          else
            match s.melds.find? (fun m => m.id == meldId) with
            | none => some { s with message := some "Target meld not found." }
            | some target =>
                match validateLayoff target.type target.cards addedCards s.rule with
                | .vFail reason =>
                    some { s with message := some ("Lay off failed: " ++ reason) }
                | .vOk =>
                    let removeIds := addedCards.map (·.id)
                    let newHand := me.hand.filter fun c => !(removeIds.contains c.id)
                    let melds := s.melds.map fun m =>
                      if m.id == meldId then { m with cards := m.cards ++ addedCards }
                      else m
                    let players := setCurrentHand s newHand
                    some { s with
                        players := players
                        melds := melds
                        selectedCardIds := []
                        message :=
                          let n := addedCards.length
                          some (s!"Laid off {n} card(s) onto "
                            ++ target.type.name ++ ". Now discard 1 card.") }

/-- `onDiscardSelected` (the variant delegating to `afterDiscard`). -/
def onDiscardSelected (s : GameState) : Option GameState :=
  if ¬ canDiscard s then some s
  else
    match s.players.get? s.currentPlayerIndex with
    | none => none
    | some me =>
        match s.selectedCardIds with
        | [cardId] =>
            match me.hand.find? (fun c => c.id == cardId) with
            | none => some { s with message := some "Card not found." }
            | some card =>
                let newHand := me.hand.filter fun c => ¬ (c.id = cardId)
                let newDiscard := discardOne s.discardPile card
                let players := setCurrentHand s newHand
                let base : GameState :=
                  { s with players := players, discardPile := newDiscard,
                           selectedCardIds := [] }
                let result := afterDiscard base me.id newHand.length
                match result.message with
                | none =>
                    match result.players.get? result.currentPlayerIndex with
                    | none => none
                    | some nextPlayer =>
                        let msg := me.name ++ " discarded 1 card. Next: "
                          ++ nextPlayer.name ++ " (Draw 1)."
                        some { result with message := some msg }
                | some _ => some result
        | _ => some { s with message := some "Must select exactly 1 card to discard" }

/-- Hand comparator of `sortByRankThenSuit`. -/
def rankThenSuitLE (a b : Card) : Prop :=
  a.rank < b.rank ∨ (a.rank = b.rank ∧ suitOrderIndex a.suit ≤ suitOrderIndex b.suit)

/-- Hand comparator of `sortBySuitThenRank`. -/
def suitThenRankLE (a b : Card) : Prop :=
  suitOrderIndex a.suit < suitOrderIndex b.suit ∨
    (suitOrderIndex a.suit = suitOrderIndex b.suit ∧ a.rank ≤ b.rank)

instance : DecidableRel rankThenSuitLE := by unfold rankThenSuitLE; infer_instance
instance : DecidableRel suitThenRankLE := by unfold suitThenRankLE; infer_instance

/-- `onSortRank` (stable comparator sort, as `insertionSort`). -/
def onSortRank (s : GameState) : GameState :=
  if ¬ canAct s then s
  else
    let players := s.players.mapIdx fun i p =>
      if i = s.currentPlayerIndex then
        { p with hand := List.insertionSort rankThenSuitLE p.hand }
      else p
    { s with players := players, message := some "Sorted hand: Rank to Suit" }

/-- `onSortSuit`. -/
def onSortSuit (s : GameState) : GameState :=
  if ¬ canAct s then s
  else
    let players := s.players.mapIdx fun i p =>
      if i = s.currentPlayerIndex then
        { p with hand := List.insertionSort suitThenRankLE p.hand }
      else p
    { s with players := players, message := some "Sorted hand: Suit to Rank" }

/-- `onToggleSelect(cardId)`. -/
def onToggleSelect (s : GameState) (cardId : String) : GameState :=
  if ¬ canAct s then s
  else
    let selectedCardIds :=
      if s.selectedCardIds.contains cardId then
        s.selectedCardIds.filter fun id => !(id == cardId)
      else s.selectedCardIds ++ [cardId]
    { s with selectedCardIds := selectedCardIds }

/-- `onClearSelection` (no guard in the source). -/
def onClearSelection (s : GameState) : GameState :=
  { s with selectedCardIds := [] }

/-- `onNextRound` (no seed; the default RNG stream is injected). -/
def onNextRound (s : GameState) (fallbackRng : Nat → ℚ) : Option GameState :=
  nextRound s none true fallbackRng

/-- One user action within a round. -/
inductive Action
  | drawFromDeck (rng : Nat → ℚ)
  | drawFromDiscard
  | submitMeld (now : Nat)
  | layoffToMeld (meldId : String)
  | discardSelected
  | sortRank
  | sortSuit
  | toggleSelect (cardId : String)
  | clearSelection

/-- The in-round step relation: apply one action handler. -/
def step (s : GameState) : Action → Option GameState
  | .drawFromDeck rng => onDrawFromDeck s rng
  | .drawFromDiscard => onDrawFromDiscard s
  | .submitMeld now => onSubmitMeld s now
  | .layoffToMeld meldId => onLayoffToMeld s meldId
  | .discardSelected => onDiscardSelected s
  | .sortRank => some (onSortRank s)
  | .sortSuit => some (onSortSuit s)
  | .toggleSelect cardId => some (onToggleSelect s cardId)
  | .clearSelection => some (onClearSelection s)

/-! ## Specification-side definitions

These definitions transcribe sentences of the specification document
(not the source); each is compared against the corresponding source
definition by a theorem below. -/

/-- The spec's bit-level mulberry32 algorithm, exactly as stated in §4.2:
`t = (t + 0x6D2B79F5) mod 2^32; x = t; x ^= x >> 15;
x = (x * (x | 1)) mod 2^32;
x ^= x + ((x ^ (x >> 7)) * (x | 61)) mod 2^32; x ^= x >> 14;
return (x mod 2^32) / 2^32`. -/
def mulberry32SpecStep (t : Nat) : Nat × Nat :=
  let t' := (t + 0x6D2B79F5) % U32
  let x0 := t'
  let x1 := x0 ^^^ (x0 >>> 15)
  let x2 := (x1 * (x1 ||| 1)) % U32
  let x3 := x2 ^^^ ((x2 + ((x2 ^^^ (x2 >>> 7)) * (x2 ||| 61)) % U32) % U32)
  let x4 := x3 ^^^ (x3 >>> 14)
  (t', x4 % U32)

def mulberry32SpecState (seed : Nat) : Nat → Nat
  | 0 => seed % U32
  | k + 1 => (mulberry32SpecStep (mulberry32SpecState seed k)).1

def mulberry32SpecNum (seed k : Nat) : Nat :=
  (mulberry32SpecStep (mulberry32SpecState seed k)).2

/-- The generator the spec describes, as the stream of its outputs. -/
def mulberry32Spec (seed : Nat) : Nat → ℚ :=
  fun k => (mulberry32SpecNum seed k : ℚ) / (U32 : ℚ)

/-- The spec's algorithm amended minimally to match the source: the first
multiplication multiplies `t ^ (t >> 15)` by `t | 1` (the incremented `t`
or-ed with 1), not by `(t ^ (t >> 15)) | 1`. -/
def mulberry32AmendedStep (t : Nat) : Nat × Nat :=
  let t' := (t + 0x6D2B79F5) % U32
  let x1 := t' ^^^ (t' >>> 15)
  let x2 := (x1 * (t' ||| 1)) % U32
  let x3 := x2 ^^^ ((x2 + ((x2 ^^^ (x2 >>> 7)) * (x2 ||| 61)) % U32) % U32)
  let x4 := x3 ^^^ (x3 >>> 14)
  (t', x4 % U32)

def mulberry32AmendedState (seed : Nat) : Nat → Nat
  | 0 => seed % U32
  | k + 1 => (mulberry32AmendedStep (mulberry32AmendedState seed k)).1

def mulberry32AmendedNum (seed k : Nat) : Nat :=
  (mulberry32AmendedStep (mulberry32AmendedState seed k)).2

/-- The amended generator, as the stream of its outputs. -/
def mulberry32Amended (seed : Nat) : Nat → ℚ :=
  fun k => (mulberry32AmendedNum seed k : ℚ) / (U32 : ℚ)

/-- The spec's total of gaps `next - prev - 1` between consecutive entries
of an ascending-sorted rank list. -/
def sortedGapTotal : List Rank → Nat
  | a :: b :: rest => (b - a - 1) + sortedGapTotal (b :: rest)
  | _ => 0

/-- The spec's acceptance condition for a RUN meld: at least 3 cards, and
either every card wild, or a single suit over the non-wild cards, pairwise
distinct non-wild ranks, and the gaps of the ascending-sorted non-wild
ranks coverable by the wild cards. -/
def RunSpecOk (cards : List Card) (rule : RoundRule) : Prop :=
  3 ≤ cards.length ∧
    ((∀ c ∈ cards, isWildRank c.rank rule = true) ∨
     ((∃ su, ∀ c ∈ nonWildCards cards rule, c.suit = su) ∧
      ((nonWildCards cards rule).map (·.rank)).Nodup ∧
      sortedGapTotal
          (List.insertionSort (· ≤ ·) ((nonWildCards cards rule).map (·.rank)))
        ≤ cards.length - (nonWildCards cards rule).length))

/-- The deck the spec's ordering sentence describes, projected to
(deck copy, suit, rank): position `i` holds copy `i / 58 + 1`; within a
copy the first 55 cards are suit-major then rank-major, the last 3 are
jokers. -/
def expectedDeckShape (i : Nat) : Nat × Suit × Rank :=
  let d := i / 58 + 1
  let w := i % 58
  if w < 55 then
    (d, FiveCrownsCompat.suits.getD (w / 11) Suit.STARS,
        FiveCrownsCompat.ranks.getD (w % 11) 0)
  else (d, Suit.STARS, 0)

/-- The deck built from the default configuration. -/
def defaultDeck : List Card :=
  createDecks FiveCrownsCompat.suits FiveCrownsCompat.ranks
    FiveCrownsCompat.decks FiveCrownsCompat.jokersPerDeck

/-- The spec's per-card penalty: Joker 50, round wild 20, else face value. -/
def specCardPenalty (r : Rank) (rule : RoundRule) : Nat :=
  if r = 0 then 50 else if r = rule.wildRank then 20 else r

/-- Forget the UI message of a state (rejections report through it). -/
def stripMessage (s : GameState) : GameState := { s with message := none }

/-! ## Shared sample data for witnesses -/

/-- The round-1 rule (hand size 3, wild rank 3). -/
def sampleRule : RoundRule := { round := 1, handSize := 3, wildRank := 3 }

def sampleCard : Card :=
  { id := "D1-HEARTS-5-14", suit := .HEARTS, rank := 5, deckIndex := 1 }

def jokerCard : Card :=
  { id := "D1-JOKER-0-55", suit := .STARS, rank := 0, deckIndex := 1 }

/-! ## Scoring lemmas -/

/-- The fold of `scoreHand` accumulates the per-card penalties. -/
theorem scoreHand_foldl_acc (rule : RoundRule) :
    ∀ (l : List Rank) (acc : Nat),
      l.foldl
        (fun total r =>
          if r = 0 then total + FiveCrownsCompat.jokerPenalty
          else if r = rule.wildRank then total + FiveCrownsCompat.wildPenalty
          else total + r)
        acc
      = acc + (l.map fun r => specCardPenalty r rule).sum
  | [], acc => by simp
  | r :: l, acc => by
      simp only [List.foldl_cons, List.map_cons, List.sum_cons,
        scoreHand_foldl_acc rule l]
      unfold specCardPenalty FiveCrownsCompat.jokerPenalty FiveCrownsCompat.wildPenalty
      split
      · omega
      · split <;> omega

/-- `scoreHand` is the sum of the spec's per-card penalties. -/
theorem scoreHand_eq_sum (l : List Rank) (rule : RoundRule) :
    scoreHand l rule = (l.map fun r => specCardPenalty r rule).sum := by
  unfold scoreHand
  simpa using scoreHand_foldl_acc rule l 0

/-- The fold of `calculateHandScore` accumulates its per-card values. -/
theorem calculateHandScore_foldl_acc (rule : RoundRule) (wp : Nat) :
    ∀ (hand : List Card) (acc : Nat),
      hand.foldl
        (fun total card =>
          total + (if isWildRank card.rank rule then wp else card.rank))
        acc
      = acc + (hand.map fun c =>
          if isWildRank c.rank rule then wp else c.rank).sum
  | [], acc => by simp
  | c :: hand, acc => by
      simp only [List.foldl_cons, List.map_cons, List.sum_cons,
        calculateHandScore_foldl_acc rule wp hand]
      omega

/-! ## Claim theorems -/

/-- C3 counterexample: at seed 0 the very first output of the source
`mulberry32` differs from the spec's stated bit-level algorithm (the
source multiplies by `t | 1`, the spec text by `(t ^ (t >> 15)) | 1`). -/
theorem mulberry32_spec_mismatch : mulberry32Spec 0 0 ≠ mulberry32 0 0 := by
  have hnum : mulberry32SpecNum 0 0 ≠ mulberry32Num 0 0 := by decide
  intro h
  apply hnum
  have h32 : ((U32 : ℚ)) ≠ 0 := by norm_num [U32]
  unfold mulberry32Spec mulberry32 at h
  rw [div_eq_div_iff h32 h32] at h
  have hcast := mul_right_cancel₀ h32 h
  exact_mod_cast hcast

theorem mulberry32AmendedStep_eq_step (t : Nat) :
    mulberry32AmendedStep t = mulberry32Step t := by
  unfold mulberry32AmendedStep mulberry32Step
  simp only [Nat.lor_comm]

theorem mulberry32AmendedState_eq_state (seed : Nat) :
    ∀ k, mulberry32AmendedState seed k = mulberry32State seed k
  | 0 => rfl
  | k + 1 => by
      rw [mulberry32AmendedState, mulberry32State,
        mulberry32AmendedState_eq_state seed k, mulberry32AmendedStep_eq_step]

/-- C3 (amended): for every seed, every call of the generator returned by
`mulberry32` returns exactly the amended bit-level algorithm's output
(amendment: the first multiplication multiplies `t ^ (t >> 15)` by
`t | 1`, not by `(t ^ (t >> 15)) | 1`), divided by 2^32. -/
theorem mulberry32_matches_amended_spec (seed k : Nat) :
    mulberry32 seed k = mulberry32Amended seed k := by
  unfold mulberry32 mulberry32Amended mulberry32Num mulberry32AmendedNum
  rw [mulberry32AmendedState_eq_state, mulberry32AmendedStep_eq_step]

/-- C7: `validateLayoff` fails on an empty `addedCards` list and otherwise
returns exactly `validateMeld` applied to `meldCards ++ addedCards` with
the same meld type and rule. -/
theorem validateLayoff_delegates (mt : MeldType) (mc ac : List Card)
    (rule : RoundRule) :
    (ac = [] → (validateLayoff mt mc ac rule).isOk = false) ∧
    (ac ≠ [] → validateLayoff mt mc ac rule = validateMeld (mc ++ ac) mt rule) := by
  constructor
  · rintro rfl
    rfl
  · intro h
    unfold validateLayoff
    rw [if_neg]
    simpa using h

theorem validateLayoff_delegates_witness :
    (validateLayoff MeldType.BOOK [] [] sampleRule).isOk = false ∧
    validateLayoff MeldType.BOOK [] [sampleCard] sampleRule
      = validateMeld ([] ++ [sampleCard]) MeldType.BOOK sampleRule :=
  ⟨(validateLayoff_delegates MeldType.BOOK [] [] sampleRule).1 rfl,
   (validateLayoff_delegates MeldType.BOOK [] [sampleCard] sampleRule).2
     (by decide)⟩

/-- C8: `scoreHand` sums, per card, 50 for a Joker, 20 for the round's
wild rank, and the face value otherwise; the empty hand scores 0 and a
hand of `n` wild-rank cards scores `n * 20`. -/
theorem scoreHand_per_card (l : List Rank) (rule : RoundRule) (n : Nat)
    (hw : rule.wildRank ≠ 0) :
    scoreHand l rule = (l.map fun r => specCardPenalty r rule).sum ∧
    scoreHand ([] : List Rank) rule = 0 ∧
    scoreHand (List.replicate n rule.wildRank) rule = n * 20 := by
  refine ⟨scoreHand_eq_sum l rule, rfl, ?_⟩
  rw [scoreHand_eq_sum, List.map_replicate]
  have hpen : specCardPenalty rule.wildRank rule = 20 := by
    unfold specCardPenalty
    rw [if_neg hw, if_pos rfl]
  rw [hpen, List.sum_replicate, smul_eq_mul]

theorem scoreHand_per_card_witness :
    scoreHand [0, 3, 7] sampleRule
      = ([0, 3, 7].map fun r => specCardPenalty r sampleRule).sum ∧
    scoreHand ([] : List Rank) sampleRule = 0 ∧
    scoreHand (List.replicate 2 sampleRule.wildRank) sampleRule = 2 * 20 :=
  scoreHand_per_card [0, 3, 7] sampleRule 2 (by decide)

/-- C10 counterexample: on a hand holding one Joker, `calculateHandScore`
with its default wild penalty scores 20 (a Joker is wild for
`isWildRank`) while `scoreHand` scores 50. -/
theorem calculateHandScore_joker_mismatch :
    calculateHandScoreDefault [jokerCard] sampleRule
      ≠ scoreHand ([jokerCard].map (·.rank)) sampleRule := by decide

/-- C10 (amended): on every hand with no Joker, `calculateHandScore` with
its default wild penalty agrees with `scoreHand` on the hand's ranks; the
two differ on Jokers (20 against 50), as the counterexample shows. -/
theorem calculateHandScore_eq_scoreHand_no_joker (hand : List Card)
    (rule : RoundRule) (h : ∀ c ∈ hand, c.rank ≠ 0) :
    calculateHandScoreDefault hand rule
      = scoreHand (hand.map (·.rank)) rule := by
  unfold calculateHandScoreDefault calculateHandScore
  rw [scoreHand_eq_sum, List.map_map]
  have hfold := calculateHandScore_foldl_acc rule 20 hand 0
  rw [hfold, Nat.zero_add]
  apply congrArg
  apply List.map_congr_left
  intro c hc
  have hr : c.rank ≠ 0 := h c hc
  unfold isWildRank isJoker specCardPenalty
  simp only [Function.comp_apply]
  rw [if_neg hr]
  by_cases hwild : c.rank = rule.wildRank
  · simp [hwild]
  · simp [hwild, hr]

theorem calculateHandScore_eq_scoreHand_no_joker_witness :
    calculateHandScoreDefault [sampleCard] sampleRule
      = scoreHand ([sampleCard].map (·.rank)) sampleRule :=
  calculateHandScore_eq_scoreHand_no_joker [sampleCard] sampleRule (by decide)

/-! ## Sorted-list lemmas for the RUN characterization -/

/-- On a `≤`-sorted list, the adjacent-duplicate scan fails exactly when
the list is strictly sorted. -/
theorem hasAdjacentDup_false_iff {l : List Rank}
    (h : List.Sorted (· ≤ ·) l) :
    hasAdjacentDup l = false ↔ List.Sorted (· < ·) l := by
  induction l with
  | nil => simp [hasAdjacentDup]
  | cons a t ih =>
    cases t with
    | nil => simp [hasAdjacentDup]
    | cons b rest =>
      rw [List.sorted_cons] at h
      have iht := ih h.2
      simp only [hasAdjacentDup, Bool.or_eq_false_iff, beq_eq_false_iff_ne, ne_eq]
      rw [iht]
      constructor
      · rintro ⟨hne, hs⟩
        rw [List.sorted_cons]
        refine ⟨?_, hs⟩
        intro x hx
        rcases List.mem_cons.mp hx with rfl | hx'
        · exact lt_of_le_of_ne (h.1 x (List.mem_cons_self x rest)) hne
        · have hab : a < b :=
            lt_of_le_of_ne (h.1 b (List.mem_cons_self b rest)) hne
          have hbx : b ≤ x := List.rel_of_sorted_cons h.2 x hx'
          exact lt_of_lt_of_le hab hbx
      · intro hs
        rw [List.sorted_cons] at hs
        exact ⟨Nat.ne_of_lt (hs.1 b (List.mem_cons_self b rest)), hs.2⟩

/-- A `≤`-sorted list with no duplicates is strictly sorted. -/
theorem sorted_lt_of_le_nodup {l : List Rank}
    (h : List.Sorted (· ≤ ·) l) (hn : l.Nodup) :
    List.Sorted (· < ·) l := by
  induction l with
  | nil => simp
  | cons a t ih =>
    rw [List.sorted_cons] at h ⊢
    rw [List.nodup_cons] at hn
    refine ⟨?_, ih h.2 hn.2⟩
    intro b hb
    exact lt_of_le_of_ne (h.1 b hb) fun he => hn.1 (he ▸ hb)

/-- On a strictly sorted list the source's gap loop never aborts and
computes the spec's gap total. -/
theorem gapTotal_of_sorted_lt :
    ∀ {l : List Nat}, List.Sorted (· < ·) l →
      gapTotal l = some ((sortedGapTotal l : Nat) : Int)
  | [], _ => rfl
  | [_], _ => rfl
  | a :: b :: rest, h => by
      rw [List.sorted_cons] at h
      have hab : a < b := h.1 b (List.mem_cons_self b rest)
      have iht := gapTotal_of_sorted_lt h.2
      have hgap : ¬ ((b : Int) - (a : Int) - 1 < 0) := by omega
      simp only [gapTotal, sortedGapTotal, if_neg hgap, iht, Option.map_some']
      congr 1
      omega

/-- `validateRun` when every card is wild. -/
theorem validateRun_nil (cards : List Card) (rule : RoundRule)
    (hnw : nonWildCards cards rule = []) :
    validateRun cards rule = .vOk := by
  unfold validateRun
  rw [hnw]

/-- `validateRun` unfolded on a non-empty non-wild list. -/
theorem validateRun_cons (cards : List Card) (rule : RoundRule)
    (c0 : Card) (rest : List Card)
    (hnw : nonWildCards cards rule = c0 :: rest) :
    validateRun cards rule =
      if !((c0 :: rest).all fun c => c.suit == c0.suit) then
        .vFail "Must be a single suit"
      else
        let ranks := List.insertionSort (· ≤ ·) ((c0 :: rest).map fun c => c.rank)
        if hasAdjacentDup ranks then .vFail "Must not contain duplicate ranks"
        else
          match gapTotal ranks with
          | none => .vFail "Must have valid rank order"
          | some needed =>
              if needed > ((cards.length - (c0 :: rest).length : Nat) : Int) then
                .vFail "Must have enough wilds to fill gaps"
              else .vOk := by
  unfold validateRun
  rw [hnw]

/-- C4: `validateMeld` accepts a RUN exactly when there are at least 3
cards and either all cards are wild, or the non-wild cards share one
suit, have pairwise distinct ranks, and the gaps of their ascending sort
are coverable by the wild cards; fewer than 3 cards always fail. -/
theorem validateRun_characterization (cards : List Card) (rule : RoundRule) :
    (validateMeld cards .RUN rule).isOk = true ↔ RunSpecOk cards rule := by
  by_cases hlen : cards.length < 3
  · have h3 : ¬ 3 ≤ cards.length := by omega
    simp [validateMeld, hlen, ValidationResult.isOk, RunSpecOk, h3]
  · have h3 : 3 ≤ cards.length := by omega
    unfold RunSpecOk validateMeld
    rw [if_neg hlen]
    show (validateRun cards rule).isOk = true ↔ _
    rw [and_iff_right h3]
    cases hnw : nonWildCards cards rule with
    | nil =>
        rw [validateRun_nil cards rule hnw]
        simp only [ValidationResult.isOk, true_iff]
        refine Or.inl fun c hc => ?_
        by_contra hcw
        have hmem : c ∈ nonWildCards cards rule :=
          List.mem_filter.mpr ⟨hc, by simp [hcw]⟩
        rw [hnw] at hmem
        exact absurd hmem (List.not_mem_nil c)
    | cons c0 rest =>
        have hc0 : c0 ∈ nonWildCards cards rule := by
          rw [hnw]
          exact List.mem_cons_self c0 rest
        have hc0f := List.mem_filter.mp hc0
        have hnotall : ¬ (∀ c ∈ cards, isWildRank c.rank rule = true) := by
          intro hall
          have hx := hc0f.2
          rw [hall c0 hc0f.1] at hx
          simp at hx
        rw [validateRun_cons cards rule c0 rest hnw, or_iff_right hnotall]
        have hsuit_iff : ((c0 :: rest).all fun c => c.suit == c0.suit) = true
            ↔ (∃ su, ∀ c ∈ (c0 :: rest), c.suit = su) := by
          constructor
          · intro hall
            exact ⟨c0.suit, fun c hc => by
              simpa using List.all_eq_true.mp hall c hc⟩
          · rintro ⟨su, hsu⟩
            apply List.all_eq_true.mpr
            intro c hc
            have h1 := hsu c hc
            have h2 := hsu c0 (List.mem_cons_self c0 rest)
            simp [h1, h2]
        have hsorted : List.Sorted (· ≤ ·)
            (List.insertionSort (· ≤ ·) ((c0 :: rest).map fun c => c.rank)) :=
          List.sorted_insertionSort (· ≤ ·) ((c0 :: rest).map fun c => c.rank)
        have hperm :
            List.Perm
              (List.insertionSort (· ≤ ·) ((c0 :: rest).map fun c => c.rank))
              ((c0 :: rest).map fun c => c.rank) :=
          List.perm_insertionSort (· ≤ ·) ((c0 :: rest).map fun c => c.rank)
        by_cases hsuit : ((c0 :: rest).all fun c => c.suit == c0.suit) = true
        · rw [hsuit]
          simp only [Bool.not_true, Bool.false_eq_true, if_false]
          by_cases hdup :
              hasAdjacentDup
                (List.insertionSort (· ≤ ·) ((c0 :: rest).map fun c => c.rank))
              = true
          · rw [if_pos hdup]
            simp only [ValidationResult.isOk, Bool.false_eq_true, false_iff]
            have hnotnodup : ¬ (((c0 :: rest).map fun c => c.rank)).Nodup := by
              intro hnodup
              have hlt := sorted_lt_of_le_nodup hsorted (hperm.nodup_iff.mpr hnodup)
              rw [(hasAdjacentDup_false_iff hsorted).mpr hlt] at hdup
              exact Bool.false_ne_true hdup
            intro hcontra
            exact hnotnodup hcontra.2.1
          · have hdupf :
                hasAdjacentDup
                  (List.insertionSort (· ≤ ·) ((c0 :: rest).map fun c => c.rank))
                = false := by
              simpa using hdup
            have hlt := (hasAdjacentDup_false_iff hsorted).mp hdupf
            have hnodup : (((c0 :: rest).map fun c => c.rank)).Nodup :=
              hperm.nodup_iff.mp hlt.nodup
            rw [hdupf]
            simp only [Bool.false_eq_true, if_false]
            rw [gapTotal_of_sorted_lt hlt]
            show (if ((sortedGapTotal (List.insertionSort (· ≤ ·)
                    ((c0 :: rest).map fun c => c.rank)) : Nat) : Int)
                  > ((cards.length - (c0 :: rest).length : Nat) : Int) then
                ValidationResult.vFail "Must have enough wilds to fill gaps"
              else ValidationResult.vOk).isOk = true ↔ _
            have hcast :
                (((sortedGapTotal (List.insertionSort (· ≤ ·)
                    ((c0 :: rest).map fun c => c.rank)) : Nat) : Int)
                  > ((cards.length - (c0 :: rest).length : Nat) : Int))
                ↔ ¬ (sortedGapTotal (List.insertionSort (· ≤ ·)
                    ((c0 :: rest).map fun c => c.rank))
                  ≤ cards.length - (c0 :: rest).length) := by
              rw [not_le]
              exact_mod_cast Iff.rfl
            by_cases hneed :
                (((sortedGapTotal (List.insertionSort (· ≤ ·)
                  ((c0 :: rest).map fun c => c.rank)) : Nat) : Int)
                > ((cards.length - (c0 :: rest).length : Nat) : Int))
            · rw [if_pos hneed]
              simp only [ValidationResult.isOk, Bool.false_eq_true, false_iff]
              intro hcontra
              exact (hcast.mp hneed) hcontra.2.2
            · rw [if_neg hneed]
              simp only [ValidationResult.isOk, true_iff]
              have hle := not_not.mp (fun hx => hneed (hcast.mpr hx))
              exact ⟨hsuit_iff.mp hsuit, hnodup, hle⟩
        · have hsf : ((c0 :: rest).all fun c => c.suit == c0.suit) = false := by
            simpa using hsuit
          rw [hsf]
          simp only [Bool.not_false, if_true, ValidationResult.isOk,
            Bool.false_eq_true, false_iff]
          intro hcontra
          exact hsuit (hsuit_iff.mpr hcontra.1)

theorem validateRun_characterization_witness :
    RunSpecOk
      [{ id := "a", suit := .HEARTS, rank := 5, deckIndex := 1 },
       { id := "b", suit := .SPADES, rank := 3, deckIndex := 1 },
       { id := "c", suit := .HEARTS, rank := 7, deckIndex := 1 }] sampleRule :=
  (validateRun_characterization _ sampleRule).mp (by decide)

/-! ## afterDiscard lemmas -/

/-- The fields of `endRound` needed by the claims. -/
theorem endRound_fields (s : GameState) :
    (endRound s).players = s.players.map (fun p =>
      { p with score := p.score + scoreHand (p.hand.map (·.rank)) s.rule }) ∧
    (endRound s).status ≠ .PLAYING ∧
    (endRound s).outTriggeredByPlayerId = none ∧
    (endRound s).turnsRemainingAfterOut = none ∧
    (endRound s).currentPlayerIndex = s.currentPlayerIndex := by
  unfold endRound
  refine ⟨rfl, ?_, rfl, rfl, rfl⟩
  intro h
  simp only at h
  split at h <;> exact GameStatus.noConfusion h

/-- When an out is already on record for another player, `afterDiscard`
skips the trigger step and runs the consumption step. -/
theorem afterDiscard_out_other (s : GameState) (a pid : String) (m : Nat)
    (hout : s.outTriggeredByPlayerId = some a) (hne : a ≠ pid) :
    afterDiscard s pid m =
      (if (consumeOutTurnIfNeeded s).status ≠ .PLAYING then
        consumeOutTurnIfNeeded s
      else advanceToNextPlayer (consumeOutTurnIfNeeded s)) := by
  have hA : (if m = 0 ∧ s.outTriggeredByPlayerId = none
      then triggerOutIfNeeded s pid else s) = s := by
    rw [if_neg]
    rintro ⟨-, h2⟩
    rw [hout] at h2
    exact Option.some_ne_none a h2
  simp only [afterDiscard]
  rw [hA, hout]
  exact if_pos hne

/-- Consuming a final turn with at least 2 turns remaining decrements the
counter and changes nothing else. -/
theorem consumeOutTurn_ge2 (s : GameState) (a : String) (k : Nat)
    (hout : s.outTriggeredByPlayerId = some a)
    (hrem : s.turnsRemainingAfterOut = some k) (hk : 2 ≤ k) :
    consumeOutTurnIfNeeded s = { s with turnsRemainingAfterOut := some (k - 1) } := by
  simp only [consumeOutTurnIfNeeded, hout, hrem]
  rw [if_neg (by omega)]

/-- Consuming the last final turn ends the round: penalties are added,
the out fields are cleared, the player index is untouched. -/
theorem consumeOutTurn_last (s : GameState) (a : String)
    (hout : s.outTriggeredByPlayerId = some a)
    (hrem : s.turnsRemainingAfterOut = some 1) :
    (consumeOutTurnIfNeeded s).status ≠ .PLAYING ∧
    (consumeOutTurnIfNeeded s).turnsRemainingAfterOut = none ∧
    (consumeOutTurnIfNeeded s).currentPlayerIndex = s.currentPlayerIndex ∧
    (consumeOutTurnIfNeeded s).players = s.players.map fun p =>
      { p with score := p.score + scoreHand (p.hand.map (·.rank)) s.rule } := by
  obtain ⟨rd, rl, pl, cpi, dp, dcp, ml, sel, tp, outf, remf, st, msg⟩ := s
  simp only at hout hrem
  subst hout
  subst hrem
  have hstep : consumeOutTurnIfNeeded
      (GameState.mk rd rl pl cpi dp dcp ml sel tp (some a) (some 1) st msg)
      = endRound (GameState.mk rd rl pl cpi dp dcp ml sel tp (some a) (some 1) st
          (some (toString "Final turns completed. Scoring round "
            ++ toString rd ++ toString "..."))) := rfl
  rw [hstep]
  have hf := endRound_fields
    (GameState.mk rd rl pl cpi dp dcp ml sel tp (some a) (some 1) st
      (some (toString "Final turns completed. Scoring round "
        ++ toString rd ++ toString "...")))
  exact ⟨hf.2.1, hf.2.2.2.1, hf.2.2.2.2, hf.1⟩

/-- C1: while an out by player `a` is pending with `k` final turns left, a
completed discard by a different player `pid` — whatever its resulting
hand size `m`, including 0 — decrements the counter by exactly one; when
the counter would reach 0 the round ends at once: penalties are scored,
status leaves PLAYING and `currentPlayerIndex` does not advance. -/
theorem afterDiscard_consumes_final_turn
    (s : GameState) (a pid : String) (k m : Nat)
    (hout : s.outTriggeredByPlayerId = some a) (hne : a ≠ pid)
    (hrem : s.turnsRemainingAfterOut = some k)
    (hst : s.status = .PLAYING) :
    (2 ≤ k →
      (afterDiscard s pid m).turnsRemainingAfterOut = some (k - 1) ∧
      (afterDiscard s pid m).outTriggeredByPlayerId = some a ∧
      (afterDiscard s pid m).status = .PLAYING ∧
      (afterDiscard s pid m).currentPlayerIndex
        = (s.currentPlayerIndex + 1) % s.players.length) ∧
    (k = 1 →
      (afterDiscard s pid m).status ≠ .PLAYING ∧
      (afterDiscard s pid m).turnsRemainingAfterOut = none ∧
      (afterDiscard s pid m).currentPlayerIndex = s.currentPlayerIndex ∧
      (afterDiscard s pid m).players = s.players.map fun p =>
        { p with score := p.score + scoreHand (p.hand.map (·.rank)) s.rule }) := by
  have heq := afterDiscard_out_other s a pid m hout hne
  constructor
  · intro hk2
    have hcons := consumeOutTurn_ge2 s a k hout hrem hk2
    rw [heq, hcons]
    rw [if_neg (by simp [hst])]
    exact ⟨rfl, hout, hst, rfl⟩
  · intro hk1
    subst hk1
    have hfields := consumeOutTurn_last s a hout hrem
    rw [heq, if_pos hfields.1]
    exact hfields

def c1State : GameState :=
  { round := 1, rule := sampleRule
    players :=
      [{ id := "P1", name := "Alice", hand := [], score := 0 },
       { id := "P2", name := "Bob", hand := [sampleCard], score := 0 },
       { id := "P3", name := "Carol", hand := [jokerCard], score := 0 }]
    currentPlayerIndex := 1
    drawPile := []
    discardPile := []
    melds := []
    selectedCardIds := []
    turnPhase := .NEED_DISCARD
    outTriggeredByPlayerId := some "P1"
    turnsRemainingAfterOut := some 2
    status := .PLAYING
    message := none }

theorem afterDiscard_consumes_final_turn_witness :
    (afterDiscard c1State "P2" 0).turnsRemainingAfterOut = some 1 ∧
    (afterDiscard c1State "P2" 0).status = GameStatus.PLAYING ∧
    (afterDiscard c1State "P2" 0).currentPlayerIndex = 2 := by
  have h := afterDiscard_consumes_final_turn c1State "P1" "P2" 2 0
    rfl (by decide) rfl rfl
  have h2 := h.1 (by omega)
  exact ⟨h2.1, h2.2.2.1, h2.2.2.2⟩

/-! ## Out-trigger preservation lemmas (C2) -/

theorem consumeOutTurn_out (s : GameState) (a : String)
    (h : s.outTriggeredByPlayerId = some a) :
    (consumeOutTurnIfNeeded s).outTriggeredByPlayerId = some a ∨
    (consumeOutTurnIfNeeded s).outTriggeredByPlayerId = none := by
  obtain ⟨rd, rl, pl, cpi, dp, dcp, ml, sel, tp, outf, remf, st, msg⟩ := s
  simp only at h
  subst h
  cases remf with
  | none => exact Or.inl rfl
  | some rem =>
      simp only [consumeOutTurnIfNeeded]
      split
      · exact Or.inr (endRound_fields _).2.2.1
      · exact Or.inl rfl

theorem afterDiscard_out (s : GameState) (pid : String) (m : Nat) (a : String)
    (h : s.outTriggeredByPlayerId = some a) :
    (afterDiscard s pid m).outTriggeredByPlayerId = some a ∨
    (afterDiscard s pid m).outTriggeredByPlayerId = none := by
  have hA : (if m = 0 ∧ s.outTriggeredByPlayerId = none
      then triggerOutIfNeeded s pid else s) = s := by
    rw [if_neg]
    rintro ⟨-, h2⟩
    rw [h] at h2
    exact Option.some_ne_none a h2
  simp only [afterDiscard]
  rw [hA, h]
  show ((if a ≠ pid then
      (if (consumeOutTurnIfNeeded s).status ≠ .PLAYING then consumeOutTurnIfNeeded s
       else advanceToNextPlayer (consumeOutTurnIfNeeded s))
    else advanceToNextPlayer s) : GameState).outTriggeredByPlayerId = some a ∨
    ((if a ≠ pid then
      (if (consumeOutTurnIfNeeded s).status ≠ .PLAYING then consumeOutTurnIfNeeded s
       else advanceToNextPlayer (consumeOutTurnIfNeeded s))
    else advanceToNextPlayer s) : GameState).outTriggeredByPlayerId = none
  by_cases hne : a ≠ pid
  · rw [if_pos hne]
    rcases consumeOutTurn_out s a h with hc | hc
    · split
      · exact Or.inl hc
      · exact Or.inl hc
    · split
      · exact Or.inr hc
      · exact Or.inr hc
  · rw [if_neg hne]
    exact Or.inl h

theorem onDrawFromDeck_out (s s' : GameState) (rng : Nat → ℚ)
    (h : onDrawFromDeck s rng = some s') :
    s'.outTriggeredByPlayerId = s.outTriggeredByPlayerId := by
  simp only [onDrawFromDeck] at h
  split at h
  · simp only [Option.some.injEq] at h
    subst h
    rfl
  · split at h
    · exact Option.noConfusion h
    · split at h
      · exact Option.noConfusion h
      · simp only [Option.some.injEq] at h
        subst h
        rfl

theorem onDrawFromDiscard_out (s s' : GameState)
    (h : onDrawFromDiscard s = some s') :
    s'.outTriggeredByPlayerId = s.outTriggeredByPlayerId := by
  simp only [onDrawFromDiscard] at h
  split at h
  · simp only [Option.some.injEq] at h
    subst h
    rfl
  · split at h
    · simp only [Option.some.injEq] at h
      subst h
      rfl
    · split at h
      · exact Option.noConfusion h
      · split at h
        · exact Option.noConfusion h
        · simp only [Option.some.injEq] at h
          subst h
          rfl

theorem onSubmitMeld_out (s s' : GameState) (now : Nat)
    (h : onSubmitMeld s now = some s') :
    s'.outTriggeredByPlayerId = s.outTriggeredByPlayerId := by
  simp only [onSubmitMeld] at h
  split at h
  · simp only [Option.some.injEq] at h
    subst h
    rfl
  · split at h
    · exact Option.noConfusion h
    · split at h
      · simp only [Option.some.injEq] at h
        subst h
        rfl
      · split at h
        · simp only [Option.some.injEq] at h
          subst h
          rfl
        · split at h
          · simp only [Option.some.injEq] at h
            subst h
            rfl
          · simp only [Option.some.injEq] at h
            subst h
            rfl

theorem onLayoffToMeld_out (s s' : GameState) (meldId : String)
    (h : onLayoffToMeld s meldId = some s') :
    s'.outTriggeredByPlayerId = s.outTriggeredByPlayerId := by
  simp only [onLayoffToMeld] at h
  split at h
  · simp only [Option.some.injEq] at h
    subst h
    rfl
  · split at h
    · exact Option.noConfusion h
    · split at h
      · simp only [Option.some.injEq] at h
        subst h
        rfl
      · split at h
        · simp only [Option.some.injEq] at h
          subst h
          rfl
        · split at h
          · simp only [Option.some.injEq] at h
            subst h
            rfl
          · split at h
            · simp only [Option.some.injEq] at h
              subst h
              rfl
            · split at h
              · simp only [Option.some.injEq] at h
                subst h
                rfl
              · simp only [Option.some.injEq] at h
                subst h
                rfl

theorem onDiscardSelected_out (s s' : GameState) (a : String)
    (ha : s.outTriggeredByPlayerId = some a)
    (h : onDiscardSelected s = some s') :
    s'.outTriggeredByPlayerId = some a ∨
    s'.outTriggeredByPlayerId = none := by
  simp only [onDiscardSelected] at h
  split at h
  · simp only [Option.some.injEq] at h
    subst h
    exact Or.inl ha
  · split at h
    · exact Option.noConfusion h
    · rename_i me hme
      split at h
      · rename_i cid hsel
        split at h
        · simp only [Option.some.injEq] at h
          subst h
          exact Or.inl ha
        · rename_i card hcard
          have hbase := afterDiscard_out
            { s with
                players := setCurrentHand s
                  (me.hand.filter fun c => ¬ (c.id = cid))
                discardPile := discardOne s.discardPile card
                selectedCardIds := [] }
            me.id (me.hand.filter fun c => ¬ (c.id = cid)).length a ha
          split at h
          · split at h
            · exact Option.noConfusion h
            · simp only [Option.some.injEq] at h
              subst h
              exact hbase
          · simp only [Option.some.injEq] at h
            subst h
            exact hbase
      · simp only [Option.some.injEq] at h
        subst h
        exact Or.inl ha

theorem onSortRank_out (s : GameState) :
    (onSortRank s).outTriggeredByPlayerId = s.outTriggeredByPlayerId := by
  unfold onSortRank
  split <;> rfl

theorem onSortSuit_out (s : GameState) :
    (onSortSuit s).outTriggeredByPlayerId = s.outTriggeredByPlayerId := by
  unfold onSortSuit
  split <;> rfl

theorem onToggleSelect_out (s : GameState) (cardId : String) :
    (onToggleSelect s cardId).outTriggeredByPlayerId = s.outTriggeredByPlayerId := by
  unfold onToggleSelect
  split <;> rfl

/-- C2: once `outTriggeredByPlayerId` holds some player `a`, no in-round
action ever rebinds it to a different player `b`: any action either
preserves it or (at round end) clears it. -/
theorem outTrigger_write_once (s : GameState) (act : Action) (s' : GameState)
    (a b : String)
    (hstep : step s act = some s')
    (ha : s.outTriggeredByPlayerId = some a)
    (hb : s'.outTriggeredByPlayerId = some b) : b = a := by
  cases act with
  | drawFromDeck rng =>
      rw [onDrawFromDeck_out s s' rng hstep, ha] at hb
      injection hb with hba
      exact hba.symm
  | drawFromDiscard =>
      rw [onDrawFromDiscard_out s s' hstep, ha] at hb
      injection hb with hba
      exact hba.symm
  | submitMeld now =>
      rw [onSubmitMeld_out s s' now hstep, ha] at hb
      injection hb with hba
      exact hba.symm
  | layoffToMeld meldId =>
      rw [onLayoffToMeld_out s s' meldId hstep, ha] at hb
      injection hb with hba
      exact hba.symm
  | discardSelected =>
      rcases onDiscardSelected_out s s' a ha hstep with h | h
      · rw [h] at hb
        injection hb with hba
        exact hba.symm
      · rw [h] at hb
        exact Option.noConfusion hb
  | sortRank =>
      have hs : s' = onSortRank s := by
        simp only [step, Option.some.injEq] at hstep
        exact hstep.symm
      rw [hs, onSortRank_out s, ha] at hb
      injection hb with hba
      exact hba.symm
  | sortSuit =>
      have hs : s' = onSortSuit s := by
        simp only [step, Option.some.injEq] at hstep
        exact hstep.symm
      rw [hs, onSortSuit_out s, ha] at hb
      injection hb with hba
      exact hba.symm
  | toggleSelect cardId =>
      have hs : s' = onToggleSelect s cardId := by
        simp only [step, Option.some.injEq] at hstep
        exact hstep.symm
      rw [hs, onToggleSelect_out s cardId, ha] at hb
      injection hb with hba
      exact hba.symm
  | clearSelection =>
      have hs : s' = onClearSelection s := by
        simp only [step, Option.some.injEq] at hstep
        exact hstep.symm
      have hco : (onClearSelection s).outTriggeredByPlayerId
          = s.outTriggeredByPlayerId := rfl
      rw [hs, hco, ha] at hb
      injection hb with hba
      exact hba.symm

theorem outTrigger_write_once_witness :
    step c1State Action.clearSelection = some (onClearSelection c1State) ∧
    c1State.outTriggeredByPlayerId = some "P1" ∧
    (onClearSelection c1State).outTriggeredByPlayerId = some "P1" ∧
    ("P1" : String) = "P1" :=
  ⟨rfl, rfl, rfl,
   outTrigger_write_once c1State Action.clearSelection
     (onClearSelection c1State) "P1" "P1" rfl rfl rfl⟩

/-! ## nextRound lemmas (C5) -/

/-- A `mapIdx` whose function preserves a projection preserves its map. -/
theorem mapIdx_proj {α β γ : Type} (l : List α) (f : Nat → α → β)
    (g : β → γ) (g' : α → γ) (h : ∀ i a, g (f i a) = g' a) :
    (l.mapIdx f).map g = l.map g' := by
  apply List.ext_get
  · simp [List.length_mapIdx]
  · intro i h1 h2
    rw [List.get_map, List.get_map, List.get_mapIdx, h]

/-- Replacing hand `i` by the `i`-th dealt hand recovers the dealt hands. -/
theorem mapIdx_hands (l : List PlayerState) (hs : List (List Card))
    (hlen : hs.length = l.length) :
    (l.mapIdx fun i p => { p with hand := hs.getD i [] }).map (·.hand) = hs := by
  apply List.ext_get
  · simp [List.length_mapIdx, hlen]
  · intro i h1 h2
    rw [List.get_map, List.get_mapIdx]
    · show hs.getD i [] = hs.get ⟨i, h2⟩
      rw [List.get_eq_getElem]
      exact List.getD_eq_getElem hs [] h2
    · simpa [List.length_mapIdx] using h1

/-- `deal` always produces one hand per player. -/
theorem deal_hands_length (deck : List Card) (pc hsz : Nat) (sd : Bool) :
    (deal deck pc hsz sd).hands.length = pc := by
  cases sd <;>
    rcases hdrop : List.drop (hsz * pc) deck with _ | ⟨r0, rest⟩ <;>
      simp [deal, hdrop]

/-- C5: from `ROUND_END`, `nextRound` below round 11 advances the round,
derives the round's rule, deals the shuffled fresh deck into new hands
while keeping ids, names and cumulative scores, clears melds, selection
and the out-trigger fields, and resets phase and status; at round 11 it
moves to `GAME_OVER` without creating a round 12. -/
theorem nextRound_lifecycle (s : GameState) (seed : Option Nat) (sd : Bool)
    (fallbackRng : Nat → ℚ) (hstat : s.status = .ROUND_END) :
    (s.round = FiveCrownsCompat.totalRounds →
      ∃ s', nextRound s seed sd fallbackRng = some s' ∧
        s'.status = .GAME_OVER ∧ s'.round = s.round ∧ s'.players = s.players) ∧
    (s.round < FiveCrownsCompat.totalRounds →
      ∃ s', nextRound s seed sd fallbackRng = some s' ∧
        s'.round = s.round + 1 ∧
        getRoundRule (s.round + 1) = some s'.rule ∧
        s'.players.map (·.id) = s.players.map (·.id) ∧
        s'.players.map (·.name) = s.players.map (·.name) ∧
        s'.players.map (·.score) = s.players.map (·.score) ∧
        s'.players.map (·.hand)
          = (deal (shuffle defaultDeck (chooseRng seed fallbackRng))
              s.players.length s'.rule.handSize sd).hands ∧
        s'.drawPile
          = (deal (shuffle defaultDeck (chooseRng seed fallbackRng))
              s.players.length s'.rule.handSize sd).drawPile ∧
        s'.discardPile
          = (deal (shuffle defaultDeck (chooseRng seed fallbackRng))
              s.players.length s'.rule.handSize sd).discardPile ∧
        s'.melds = [] ∧ s'.selectedCardIds = [] ∧
        s'.outTriggeredByPlayerId = none ∧
        s'.turnsRemainingAfterOut = none ∧
        s'.turnPhase = .NEED_DRAW ∧ s'.status = .PLAYING) := by
  constructor
  · intro hr
    have heq : nextRound s seed sd fallbackRng
        = some { s with
            status := .GAME_OVER
            message := some ("Game over. Winner: " ++ computeWinnerName s.players) } := by
      unfold nextRound
      rw [if_pos (by omega)]
    exact ⟨_, heq, rfl, rfl, rfl⟩
  · intro hr
    have hrule : getRoundRule (s.round + 1)
        = some { round := s.round + 1, handSize := s.round + 1 + 2,
                 wildRank := s.round + 1 + 2 } := by
      unfold getRoundRule
      rw [if_neg]
      push_neg
      unfold FiveCrownsCompat.totalRounds at hr ⊢
      omega
    have heq : nextRound s seed sd fallbackRng = some
        { s with
            round := s.round + 1
            rule := { round := s.round + 1, handSize := s.round + 1 + 2,
                      wildRank := s.round + 1 + 2 }
            players := s.players.mapIdx fun i p =>
              { p with hand := (deal (shuffle defaultDeck (chooseRng seed fallbackRng))
                  s.players.length (s.round + 1 + 2) sd).hands.getD i [] }
            drawPile := (deal (shuffle defaultDeck (chooseRng seed fallbackRng))
                s.players.length (s.round + 1 + 2) sd).drawPile
            discardPile := (deal (shuffle defaultDeck (chooseRng seed fallbackRng))
                s.players.length (s.round + 1 + 2) sd).discardPile
            melds := []
            selectedCardIds := []
            turnPhase := .NEED_DRAW
            status := .PLAYING
            outTriggeredByPlayerId := none
            turnsRemainingAfterOut := none
            message := some (toString "Round " ++ toString (s.round + 1)
              ++ toString " started. Wild Rank: " ++ toString (s.round + 1 + 2)
              ++ toString "") } := by
      unfold nextRound
      rw [if_neg (by omega), hrule]
      rfl
    refine ⟨_, heq, rfl, hrule, ?_, ?_, ?_, ?_, rfl, rfl, rfl, rfl, rfl, rfl, rfl, rfl⟩
    · exact mapIdx_proj s.players _ _ _ fun i a => rfl
    · exact mapIdx_proj s.players _ _ _ fun i a => rfl
    · exact mapIdx_proj s.players _ _ _ fun i a => rfl
    · exact mapIdx_hands s.players _ (deal_hands_length _ _ _ _)

def c5State : GameState :=
  { round := 11, rule := { round := 11, handSize := 13, wildRank := 13 }
    players :=
      [{ id := "P1", name := "Alice", hand := [sampleCard], score := 30 },
       { id := "P2", name := "Bob", hand := [], score := 12 }]
    currentPlayerIndex := 0
    drawPile := []
    discardPile := []
    melds := []
    selectedCardIds := []
    turnPhase := .NEED_DRAW
    outTriggeredByPlayerId := none
    turnsRemainingAfterOut := none
    status := .ROUND_END
    message := none }

theorem nextRound_lifecycle_witness :
    ∃ s', nextRound c5State none true (fun _ => 0) = some s' ∧
      s'.status = GameStatus.GAME_OVER ∧ s'.round = c5State.round ∧
      s'.players = c5State.players :=
  (nextRound_lifecycle c5State none true (fun _ => 0) rfl).1 rfl

/-! ## Meld / lay-off rejection lemmas (C6) -/

/-- A member of `setCurrentHand s nh` either is a player of `s` or holds
the replaced hand `nh`. -/
theorem mem_setCurrentHand {s : GameState} {nh : List Card} {p' : PlayerState}
    (h : p' ∈ setCurrentHand s nh) :
    p'.hand = nh ∨ p' ∈ s.players := by
  unfold setCurrentHand at h
  rw [List.mapIdx_eq_ofFn] at h
  rcases (List.mem_ofFn _ _).mp h with ⟨i, hi⟩
  simp only at hi
  by_cases hcpi : (i : Nat) = s.currentPlayerIndex
  · rw [if_pos hcpi] at hi
    left
    rw [← hi]
  · rw [if_neg hcpi] at hi
    right
    rw [← hi]
    exact List.get_mem s.players i i.isLt

/-- With pairwise distinct ids in the hand, removing the cards whose ids
occur in `ids` removes at most `ids.length` cards. -/
theorem filter_not_contains_length (hand : List Card) (ids : List String)
    (hnodup : (hand.map (·.id)).Nodup) :
    hand.length - ids.length
      ≤ (hand.filter fun c => !(ids.contains c.id)).length := by
  have hsplit : hand.length
      = (hand.filter fun c => ids.contains c.id).length
        + (hand.filter fun c => !(ids.contains c.id)).length :=
    List.length_eq_length_filter_add _
  have hsub : List.Sublist
      ((hand.filter fun c => ids.contains c.id).map (·.id))
      (hand.map (·.id)) :=
    (List.filter_sublist hand).map _
  have hnd : ((hand.filter fun c => ids.contains c.id).map (·.id)).Nodup :=
    hnodup.sublist hsub
  have hss : ((hand.filter fun c => ids.contains c.id).map (·.id)) ⊆ ids := by
    intro x hx
    rcases List.mem_map.mp hx with ⟨c, hc, rfl⟩
    have := (List.mem_filter.mp hc).2
    simpa using this
  have hlen : ((hand.filter fun c => ids.contains c.id).map (·.id)).length
      ≤ ids.length := (hnd.subperm hss).length_le
  rw [List.length_map] at hlen
  omega

/-- A rejected `onSubmitMeld` (both shapes invalid, or removal would empty
the hand) changes nothing but the message. -/
theorem onSubmitMeld_reject (s : GameState) (now : Nat) (me : PlayerState)
    (hme : s.players.get? s.currentPlayerIndex = some me)
    (hfail :
      ((validateMeld (selectedFromHand me.hand s.selectedCardIds) .BOOK s.rule).isOk
          = false ∧
       (validateMeld (selectedFromHand me.hand s.selectedCardIds) .RUN s.rule).isOk
          = false) ∨
      (me.hand.filter fun c =>
        !(((selectedFromHand me.hand s.selectedCardIds).map (·.id)).contains c.id)).length
          = 0) :
    ∃ s', onSubmitMeld s now = some s' ∧ stripMessage s' = stripMessage s := by
  by_cases hg : canMeld s
  case neg =>
    exact ⟨s, by unfold onSubmitMeld; rw [if_pos hg], rfl⟩
  case pos =>
    by_cases hzero : (selectedFromHand me.hand s.selectedCardIds).length = 0
    · have heq : onSubmitMeld s now
          = some { s with message := some "Select cards first." } := by
        simp only [onSubmitMeld, hme]
        rw [if_neg (not_not_intro hg), if_pos hzero]
      exact ⟨_, heq, rfl⟩
    · rcases hfail with ⟨hbook, hrun⟩ | hempty
      · rcases hv : validateMeld (selectedFromHand me.hand s.selectedCardIds) .RUN s.rule
          with _ | r
        · rw [hv] at hrun
          exact absurd hrun (by simp [ValidationResult.isOk])
        · have heq : onSubmitMeld s now
              = some { s with message := some ("Invalid meld: " ++ r) } := by
            simp only [onSubmitMeld, hme]
            rw [if_neg (not_not_intro hg), if_neg hzero,
              if_neg (by rw [hbook]; exact Bool.false_ne_true), hv]
          exact ⟨_, heq, rfl⟩
      · by_cases hbook : (validateMeld (selectedFromHand me.hand s.selectedCardIds)
            .BOOK s.rule).isOk = true
        · rcases hv : validateMeld (selectedFromHand me.hand s.selectedCardIds)
              .BOOK s.rule with _ | r
          · have heq : onSubmitMeld s now = some { s with message := some "Must keep 1 card to discard. (Go out happens on discard.)" } := by
              simp only [onSubmitMeld, hme]
              rw [if_neg (not_not_intro hg), if_neg hzero, if_pos hbook, hv]
              show (if _ < 1 then _ else _) = _
              rw [if_pos (by omega)]
            exact ⟨_, heq, rfl⟩
          · rw [hv] at hbook
            exact absurd hbook (by simp [ValidationResult.isOk])
        · rcases hv : validateMeld (selectedFromHand me.hand s.selectedCardIds)
              .RUN s.rule with _ | r
          · have heq : onSubmitMeld s now = some { s with message := some "Must keep 1 card to discard. (Go out happens on discard.)" } := by
              simp only [onSubmitMeld, hme]
              rw [if_neg (not_not_intro hg), if_neg hzero, if_neg hbook, hv]
              show (if _ < 1 then _ else _) = _
              rw [if_pos (by omega)]
            exact ⟨_, heq, rfl⟩
          · have heq : onSubmitMeld s now
                = some { s with message := some ("Invalid meld: " ++ r) } := by
              simp only [onSubmitMeld, hme]
              rw [if_neg (not_not_intro hg), if_neg hzero, if_neg hbook, hv]
            exact ⟨_, heq, rfl⟩

/-- `onSubmitMeld` never empties any hand. -/
theorem onSubmitMeld_hands (s : GameState) (now : Nat) (s' : GameState)
    (h : onSubmitMeld s now = some s')
    (hne : ∀ p ∈ s.players, p.hand ≠ []) :
    ∀ p' ∈ s'.players, p'.hand ≠ [] := by
  simp only [onSubmitMeld] at h
  split at h
  · simp only [Option.some.injEq] at h
    subst h
    exact hne
  · split at h
    · exact Option.noConfusion h
    · rename_i me hme
      split at h
      · simp only [Option.some.injEq] at h
        subst h
        exact hne
      · split at h
        · simp only [Option.some.injEq] at h
          subst h
          exact hne
        · split at h
          · simp only [Option.some.injEq] at h
            subst h
            exact hne
          · rename_i hlen1
            simp only [Option.some.injEq] at h
            subst h
            intro p' hp'
            rcases mem_setCurrentHand hp' with hh | hmem
            · rw [hh]
              intro hnil
              rw [hnil] at hlen1
              exact hlen1 (by simp)
            · exact hne p' hmem

/-- A rejected `onLayoffToMeld` (removal would empty the hand, or the
combined meld fails validation) changes nothing but the message. -/
theorem onLayoffToMeld_reject (s : GameState) (meldId : String)
    (me : PlayerState)
    (hme : s.players.get? s.currentPlayerIndex = some me)
    (hfail :
      (me.hand.length - (selectedFromHand me.hand s.selectedCardIds).length < 1) ∨
      (∃ target, s.melds.find? (fun m => m.id == meldId) = some target ∧
        (validateLayoff target.type target.cards
          (selectedFromHand me.hand s.selectedCardIds) s.rule).isOk = false)) :
    ∃ s', onLayoffToMeld s meldId = some s' ∧ stripMessage s' = stripMessage s := by
  by_cases hg : canAct s ∧ canMeld s
  case neg =>
    exact ⟨s, by unfold onLayoffToMeld; rw [if_pos hg], rfl⟩
  case pos =>
    by_cases hsel : s.selectedCardIds.length = 0
    · have heq : onLayoffToMeld s meldId
          = some { s with message := some "Select cards to lay off first." } := by
        simp only [onLayoffToMeld, hme]
        rw [if_neg (not_not_intro hg), if_pos hsel]
      exact ⟨_, heq, rfl⟩
    · by_cases hadd : (selectedFromHand me.hand s.selectedCardIds).length = 0
      · have heq : onLayoffToMeld s meldId
            = some { s with message := some "Selected cards not found in hand." } := by
          simp only [onLayoffToMeld, hme]
          rw [if_neg (not_not_intro hg), if_neg hsel, if_pos hadd]
        exact ⟨_, heq, rfl⟩
      · by_cases hcnt :
            me.hand.length - (selectedFromHand me.hand s.selectedCardIds).length < 1
        · have heq : onLayoffToMeld s meldId = some { s with message := some "Must keep 1 card to discard. (Go out happens on discard.)" } := by
            simp only [onLayoffToMeld, hme]
            rw [if_neg (not_not_intro hg), if_neg hsel, if_neg hadd, if_pos hcnt]
          exact ⟨_, heq, rfl⟩
        · rcases hfail with hc | ⟨target, hfind, hv⟩
          · exact absurd hc hcnt
          · rcases hvv : validateLayoff target.type target.cards
                (selectedFromHand me.hand s.selectedCardIds) s.rule with _ | r
            · rw [hvv] at hv
              exact absurd hv (by simp [ValidationResult.isOk])
            · have heq : onLayoffToMeld s meldId
                  = some { s with message := some ("Lay off failed: " ++ r) } := by
                simp only [onLayoffToMeld, hme]
                rw [if_neg (not_not_intro hg), if_neg hsel, if_neg hadd, if_neg hcnt]
                simp only [hfind]
                rw [hvv]
              exact ⟨_, heq, rfl⟩

/-- `onLayoffToMeld` never empties any hand of a state whose current
player's hand has pairwise distinct card ids. -/
theorem onLayoffToMeld_hands (s : GameState) (meldId : String)
    (s' : GameState) (me : PlayerState)
    (hme : s.players.get? s.currentPlayerIndex = some me)
    (hnodup : (me.hand.map (·.id)).Nodup)
    (h : onLayoffToMeld s meldId = some s')
    (hne : ∀ p ∈ s.players, p.hand ≠ []) :
    ∀ p' ∈ s'.players, p'.hand ≠ [] := by
  simp only [onLayoffToMeld, hme] at h
  split at h
  · simp only [Option.some.injEq] at h
    subst h
    exact hne
  · split at h
    · simp only [Option.some.injEq] at h
      subst h
      exact hne
    · split at h
      · simp only [Option.some.injEq] at h
        subst h
        exact hne
      · split at h
        · simp only [Option.some.injEq] at h
          subst h
          exact hne
        · rename_i hcnt
          split at h
          · simp only [Option.some.injEq] at h
            subst h
            exact hne
          · rename_i target hfind
            split at h
            · simp only [Option.some.injEq] at h
              subst h
              exact hne
            · simp only [Option.some.injEq] at h
              subst h
              intro p' hp'
              rcases mem_setCurrentHand hp' with hh | hmem
              · rw [hh]
                intro hnil
                have hlen := filter_not_contains_length me.hand
                  ((selectedFromHand me.hand s.selectedCardIds).map (·.id)) hnodup
                rw [hnil] at hlen
                simp only [List.length_nil, Nat.le_zero, List.length_map] at hlen
                omega
              · exact hne p' hmem

/-- C6: in a state gating melds (PLAYING and NEED_DISCARD are checked by
the handlers themselves), a submit-meld whose selection fails both meld
shapes, or whose removal would leave the hand empty, and a lay-off whose
combined meld fails validation or whose removal would leave the hand
empty, are rejected changing nothing but the message; consequently meld
and lay-off never take any non-empty hand to 0 cards — only a discard
can. -/
theorem meld_layoff_never_empty_hand (s : GameState) (now : Nat)
    (meldId : String) (me : PlayerState)
    (hme : s.players.get? s.currentPlayerIndex = some me)
    (hnodup : (me.hand.map (·.id)).Nodup) :
    (((validateMeld (selectedFromHand me.hand s.selectedCardIds) .BOOK s.rule).isOk
          = false ∧
      (validateMeld (selectedFromHand me.hand s.selectedCardIds) .RUN s.rule).isOk
          = false) →
      ∃ s', onSubmitMeld s now = some s' ∧ stripMessage s' = stripMessage s) ∧
    ((me.hand.filter fun c =>
        !(((selectedFromHand me.hand s.selectedCardIds).map (·.id)).contains c.id)).length
          = 0 →
      ∃ s', onSubmitMeld s now = some s' ∧ stripMessage s' = stripMessage s) ∧
    (me.hand.length - (selectedFromHand me.hand s.selectedCardIds).length < 1 →
      ∃ s', onLayoffToMeld s meldId = some s' ∧ stripMessage s' = stripMessage s) ∧
    (∀ target, s.melds.find? (fun m => m.id == meldId) = some target →
      (validateLayoff target.type target.cards
        (selectedFromHand me.hand s.selectedCardIds) s.rule).isOk = false →
      ∃ s', onLayoffToMeld s meldId = some s' ∧ stripMessage s' = stripMessage s) ∧
    ((∀ p ∈ s.players, p.hand ≠ []) →
      (∀ s', onSubmitMeld s now = some s' → ∀ p' ∈ s'.players, p'.hand ≠ []) ∧
      (∀ s', onLayoffToMeld s meldId = some s' → ∀ p' ∈ s'.players, p'.hand ≠ [])) := by
  refine ⟨?_, ?_, ?_, ?_, ?_⟩
  · intro hf
    exact onSubmitMeld_reject s now me hme (Or.inl hf)
  · intro hf
    exact onSubmitMeld_reject s now me hme (Or.inr hf)
  · intro hf
    exact onLayoffToMeld_reject s meldId me hme (Or.inl hf)
  · intro target hfind hv
    exact onLayoffToMeld_reject s meldId me hme (Or.inr ⟨target, hfind, hv⟩)
  · intro hne
    exact ⟨fun s' h => onSubmitMeld_hands s now s' h hne,
           fun s' h => onLayoffToMeld_hands s meldId s' me hme hnodup h hne⟩

def c6Me : PlayerState :=
  { id := "P2", name := "Bob", hand := [sampleCard], score := 0 }

theorem meld_layoff_never_empty_hand_witness :
    ∃ s', onSubmitMeld c1State 0 = some s'
      ∧ stripMessage s' = stripMessage c1State :=
  (meld_layoff_never_empty_hand c1State 0 "meld-1" c6Me rfl (by decide)).1
    (by decide)

set_option maxRecDepth 40000 in
/-- C9: the default configuration's deck has 116 cards (110 non-jokers
and 6 jokers) with pairwise distinct ids, ordered copy-major, then
suit-major, then rank-major, each copy's jokers appended last. -/
theorem createDecks_default_shape :
    defaultDeck.length = 116 ∧
    (defaultDeck.filter fun c => c.rank != 0).length = 110 ∧
    (defaultDeck.filter fun c => c.rank == 0).length = 6 ∧
    (defaultDeck.map (·.id)).Nodup ∧
    defaultDeck.map (fun c => (c.deckIndex, c.suit, c.rank))
      = (List.range 116).map expectedDeckShape := by
  refine ⟨by decide, by decide, by decide, by decide, by decide⟩

end FluxRounds
